import Mathlib

/-!
Shallow embedding of the aggregation-and-color-encoding pipeline of the two
Streamlit apps (`Part1_Streamlit_App.py`, `Part2_Streamlit_App.py`).
Machine floats are modelled as rationals; the pandas and branca library
calls made by the source are embedded from their published semantics
(linear-interpolation quantiles, piecewise-linear colormaps).
-/

/-- An RGBA color with components as rational "floats" in `[0, 1]`, the
representation branca color parsing produces. -/
structure RGBA where
  r : ℚ
  g : ℚ
  b : ℚ
  a : ℚ
deriving DecidableEq

/-- The `COLOR_PALETTE` constant of both apps: the six CSS named colors,
parsed the way branca parses color names (hex channel / 255, alpha 1). -/
def COLOR_PALETTE : List RGBA :=
  [⟨128/255, 128/255, 128/255, 1⟩,  -- gray
   ⟨0, 0, 1, 1⟩,                    -- blue
   ⟨0, 128/255, 0, 1⟩,              -- green
   ⟨1, 1, 0, 1⟩,                    -- yellow
   ⟨1, 165/255, 0, 1⟩,              -- orange
   ⟨1, 0, 0, 1⟩]                    -- red

/-- Sort a value series ascending (the order the quantile computation works
over). -/
def sortValues (values : List ℚ) : List ℚ := List.insertionSort (· ≤ ·) values

/-- Index `⌊q * (n - 1)⌋` of the lower neighbour used by the
linear-interpolation quantile method (pandas default). -/
def qIndex (xs : List ℚ) (q : ℚ) : ℕ := (⌊q * ((xs.length : ℚ) - 1)⌋).toNat

/-- Linear-interpolation quantile of a sorted series `xs` at fraction `q`:
with `h = q * (n - 1)`, interpolate between `xs[⌊h⌋]` and its successor
(pandas `Series.quantile` with the default interpolation). -/
def quantileAt (xs : List ℚ) (q : ℚ) : ℚ :=
  let i := qIndex xs q
  let j := min (i + 1) (xs.length - 1)
  xs.getD i 0 + (q * ((xs.length : ℚ) - 1) - (i : ℚ)) * (xs.getD j 0 - xs.getD i 0)

/-- `df[count_col].quantile([0, 0.25, 0.5, 0.75, 1])`: the five quantile
breaks of a value series (Part 1 line 65, Part 2 line 63). -/
def quantileBreaks (values : List ℚ) : List ℚ :=
  [0, 1/4, 1/2, 3/4, 1].map (quantileAt (sortValues values))

/-- `branca.colormap.LinearColormap.rgba_floats_tuple`, the colormap the
source builds over the quantile breaks: clamp `x ≤ index[0]` to the first
color and `x ≥ index[-1]` to the last color, otherwise interpolate linearly
between the two palette colors adjacent to `x` in the index.  (The library
raises on a descending index; that branch is unreachable for the sorted
indexes used here and is modelled by the `p = 1` fallback.) -/
def rgbaFloatsTuple (colors : List RGBA) (index : List ℚ) (x : ℚ) : RGBA :=
  if x ≤ index.getD 0 0 then colors.getD 0 ⟨0, 0, 0, 0⟩
  else if index.getLastD 0 ≤ x then colors.getLastD ⟨0, 0, 0, 0⟩
  else
    let i := (index.filter (fun u => decide (u < x))).length
    let lo := index.getD (i - 1) 0
    let hi := index.getD i 0
    let p : ℚ := if lo < hi then (x - lo) / (hi - lo) else 1
    let c0 := colors.getD (i - 1) ⟨0, 0, 0, 0⟩
    let c1 := colors.getD i ⟨0, 0, 0, 0⟩
    ⟨(1 - p) * c0.r + p * c1.r, (1 - p) * c0.g + p * c1.g,
     (1 - p) * c0.b + p * c1.b, (1 - p) * c0.a + p * c1.a⟩

/-- Truncation toward zero, the semantics of Python `int()` on a float. -/
def ratTrunc (q : ℚ) : ℤ := if 0 ≤ q then ⌊q⌋ else -⌊-q⌋

/-- One channel of branca `rgba_bytes_tuple`: `int(u * 255.9999)`. -/
def floatToByte (u : ℚ) : ℤ := ratTrunc (u * (2559999 / 10000))

/-- `LinearColormap.rgb_bytes_tuple`: the `(r, g, b)` byte triple for `x`
(Part 1 line 72 and Part 2 line 120 apply this to every displayed row). -/
def rgbBytesTuple (colors : List RGBA) (index : List ℚ) (x : ℚ) : ℤ × ℤ × ℤ :=
  (floatToByte (rgbaFloatsTuple colors index x).r,
   floatToByte (rgbaFloatsTuple colors index x).g,
   floatToByte (rgbaFloatsTuple colors index x).b)

/-- One aggregated result row: an H3 cell key and its metric value (the
`H3` / `COUNT` columns of the fetched frames). -/
structure MetricRow where
  h3 : String
  count : ℚ
deriving DecidableEq

/-- Part 1 `generate_color_map` (lines 51-73): on an empty frame return it
unchanged; otherwise compute the five quantile breaks of the count column,
build the colormap over them and attach a color byte triple to every row.
The source passes the module constant `COLOR_PALETTE`; the palette is a
parameter here so color-scale properties can be stated for any palette. -/
def generate_color_map (palette : List RGBA) (rows : List MetricRow) :
    List (MetricRow × ℤ × ℤ × ℤ) :=
  if rows = [] then []
  else
    rows.map (fun r =>
      (r, rgbBytesTuple palette (quantileBreaks (rows.map (fun s => s.count))) r.count))

/-- Part 1 `main` lines 196-198: after colors are attached, restrict the
frame to the selected H3 cell unless "All" is selected. -/
def part1FilterH3 (colored : List (MetricRow × ℤ × ℤ × ℤ)) (selectedH3 : String) :
    List (MetricRow × ℤ × ℤ × ℤ) :=
  if selectedH3 = "All" then colored
  else colored.filter (fun rc => decide (rc.1.h3 = selectedH3))

/-- Part 2 `fetch_h3_data` lines 58-69, applied to the rows the query
returns: an empty frame short-circuits to an empty frame with an empty
quantile series; otherwise the quantiles are computed over the full frame
*before* the optional inclusive score-range filter is applied. -/
def fetchH3Process (rows : List MetricRow) (scoreRange : Option (ℚ × ℚ)) :
    List MetricRow × List ℚ :=
  if rows = [] then ([], [])
  else
    (match scoreRange with
     | some (lo, hi) => rows.filter (fun r => decide (lo ≤ r.count) && decide (r.count ≤ hi))
     | none => rows,
     quantileBreaks (rows.map (fun r => r.count)))

/-- Part 2 `render_pydeck_chart` lines 114-120: color every row of the
(filtered) frame with the colormap built over the precomputed quantiles. -/
def part2ColoredRows (palette : List RGBA) (rows : List MetricRow)
    (scoreRange : Option (ℚ × ℚ)) : List (MetricRow × ℤ × ℤ × ℤ) :=
  ((fetchH3Process rows scoreRange).1).map
    (fun r => (r, rgbBytesTuple palette (fetchH3Process rows scoreRange).2 r.count))

/-- `df["COUNT"].max()` of a result frame (defaulted to 0 on the empty
frame, which both renderers reject before reaching the elevation code). -/
def maxCount (rows : List MetricRow) : ℚ := ((rows.map (fun r => r.count)).max?).getD 0

/-- Division as evaluated inside the deck.gl elevation expression: dividing
by zero is a fault (`none`), not a value. -/
def checkedDiv (a b : ℚ) : Option ℚ := if b = 0 then none else some (a / b)

/-- Part 1 `render_pydeck_chart` line 135: the per-row elevation is
`COUNT / max_count` only when `max_count > 0`, else the literal 0. -/
def part1GetElevation (rows : List MetricRow) (v : ℚ) : Option ℚ :=
  if 0 < maxCount rows then checkedDiv v (maxCount rows) else some 0

/-- Part 2 `render_pydeck_chart` line 130: the per-row elevation is
`COUNT / max` whenever the frame is non-empty — the guard checks emptiness,
not the maximum — and the literal 0 only for an empty frame. -/
def part2GetElevation (rows : List MetricRow) (v : ℚ) : Option ℚ :=
  if rows = [] then some 0 else checkedDiv v (maxCount rows)

/-- Part 1 `BASE_QUERY_TEMPLATE.format(...)` (lines 25-32, instantiated at
lines 188-189): the aggregation query is produced by splicing the arguments
directly into the SQL text. -/
def baseQueryFormat (h3_column agg_function metric start_date end_date
    start_time end_time : String) : String :=
  "\n    SELECT " ++ h3_column ++ ", " ++ agg_function ++ "(" ++ metric ++
  ") AS COUNT\n    FROM advanced_analytics.public.ny_taxi_rides_compare\n    WHERE\n        pickup_time BETWEEN DATE(\x27" ++
  start_date ++ "\x27) AND DATE(\x27" ++ end_date ++
  "\x27)\n        AND TIME(pickup_time) BETWEEN \x27" ++ start_time ++
  "\x27 AND \x27" ++ end_time ++ "\x27\n    GROUP BY 1\n"

/-- Part 2 `fetch_h3_data` lines 41-45: the aggregation select-list item. -/
def aggregationSqlFor (measure : String) : String :=
  if measure = "ORDERS" then "ROUND(COUNT(*), 2) AS count"
  else "ROUND(AVG(" ++ measure ++ "), 2) AS count"

/-- Part 2 `fetch_h3_data` lines 41-46: the WHERE clause — empty for the
ORDERS measure, a null-exclusion predicate for the score measures. -/
def whereClauseFor (measure : String) : String :=
  if measure = "ORDERS" then ""
  else "WHERE " ++ measure ++ " IS NOT NULL"

/-- Part 2 `fetch_h3_data` lines 49-57: the full query text, built by
splicing dimension, resolution and the two clauses into the SQL string. -/
def fetchH3Query (resolution : ℕ) (dimension measure : String) : String :=
  "\n        SELECT\n            H3_POINT_TO_CELL_STRING(TO_GEOGRAPHY(" ++
  dimension ++ "), " ++ toString resolution ++ ") AS h3,\n            " ++
  aggregationSqlFor measure ++
  "\n        FROM\n            advanced_analytics.public.orders_reviews_sentiment_analysis\n        " ++
  whereClauseFor measure ++ "\n        GROUP BY 1\n    "

/-- Part 2 `render_sidebar` lines 79-81: the lower bound of the resolution
slider. -/
def H3_RESOLUTION_MIN : ℕ := 6

/-- Part 2 `render_sidebar` lines 79-81: the upper bound of the resolution
slider. -/
def H3_RESOLUTION_MAX : ℕ := 9

/-- One row of the Part 1 time-series frame: `PICKUP_TIME` split into its
date component (encoded order-isomorphically as a natural, e.g. `yyyymmdd`)
and its time-of-day component (minutes), plus cell id and both measures. -/
structure TimeSeriesPoint where
  date : ℕ
  time : ℕ
  h3 : String
  pickups : ℚ
  forecast : ℚ
deriving DecidableEq

/-- Part 1 `main` line 218: inclusive date-range membership. -/
def inDateRange (dateRange : ℕ × ℕ) (p : TimeSeriesPoint) : Bool :=
  decide (dateRange.1 ≤ p.date) && decide (p.date ≤ dateRange.2)

/-- Part 1 `main` line 219: inclusive time-of-day-range membership. -/
def inTimeRange (timeRange : ℕ × ℕ) (p : TimeSeriesPoint) : Bool :=
  decide (timeRange.1 ≤ p.time) && decide (p.time ≤ timeRange.2)

/-- Part 1 `main` line 221: keep the points inside both windows. -/
def filterTimeSeries (pts : List TimeSeriesPoint) (dateRange timeRange : ℕ × ℕ) :
    List TimeSeriesPoint :=
  pts.filter (fun p => inDateRange dateRange p && inTimeRange timeRange p)

/-- Part 1 `main` lines 223-227: when a specific cell is selected, keep
only its points before aggregating. -/
def cellSelect (pts : List TimeSeriesPoint) (selectedH3 : String) :
    List TimeSeriesPoint :=
  if selectedH3 = "All" then pts else pts.filter (fun p => decide (p.h3 = selectedH3))

/-- `groupby("PICKUP_TIME")[["PICKUPS", "FORECAST"]].sum()`: one output row
per distinct timestamp, summing the two measures independently. -/
def groupSumByTimestamp (pts : List TimeSeriesPoint) :
    List ((ℕ × ℕ) × ℚ × ℚ) :=
  ((pts.map (fun p => (p.date, p.time))).dedup).map
    (fun k =>
      (k, ((pts.filter (fun p => decide ((p.date, p.time) = k))).map (fun p => p.pickups)).sum,
          ((pts.filter (fun p => decide ((p.date, p.time) = k))).map (fun p => p.forecast)).sum))

/-- Part 1 `main` lines 218-227, end to end: filter by the inclusive date
and time windows, optionally by the selected cell, then aggregate by exact
timestamp. -/
def timeSeriesAgg (pts : List TimeSeriesPoint) (dateRange timeRange : ℕ × ℕ)
    (selectedH3 : String) : List ((ℕ × ℕ) × ℚ × ℚ) :=
  groupSumByTimestamp (cellSelect (filterTimeSeries pts dateRange timeRange) selectedH3)

/-- Modelled from the spec: the `computeBreaks` contract of
`QuantileColorMapper` — fail with `EmptyInputError` on an empty sequence,
otherwise return the five quantile breaks.  No such error path exists in
the source (both apps return an empty sentinel before computing quantiles);
this definition states the contract the claim asserts, for comparison. -/
def computeBreaksSpec (values : List ℚ) : Except String (List ℚ) :=
  if values = [] then Except.error "EmptyInputError"
  else Except.ok (quantileBreaks values)

/-! ## Helper lemmas -/

theorem data_infix {q : String} (pre mid post : String) (hq : q = pre ++ mid ++ post) :
    mid.data <:+: q.data := by
  subst hq
  simp only [String.data_append]
  exact List.infix_append pre.data mid.data post.data

/-! ## Query construction (claims C3, C4, C5) -/

set_option maxRecDepth 4000 in
/-- Claim C3 (amended): both apps build their aggregation queries as raw
interpolated strings — every user-supplied component (dates and times in
Part 1; location dimension and resolution in Part 2) is spliced verbatim
into the query text, and no structured, parameterized query description
exists. -/
theorem C3_raw_interpolated_query (h3c agg m sd ed st et dim meas : String) (r : ℕ) :
    sd.data <:+: (baseQueryFormat h3c agg m sd ed st et).data ∧
    ed.data <:+: (baseQueryFormat h3c agg m sd ed st et).data ∧
    st.data <:+: (baseQueryFormat h3c agg m sd ed st et).data ∧
    et.data <:+: (baseQueryFormat h3c agg m sd ed st et).data ∧
    dim.data <:+: (fetchH3Query r dim meas).data ∧
    (toString r).data <:+: (fetchH3Query r dim meas).data := by
  refine ⟨?_, ?_, ?_, ?_, ?_, ?_⟩
  · refine data_infix
      ("\n    SELECT " ++ h3c ++ ", " ++ agg ++ "(" ++ m ++
       ") AS COUNT\n    FROM advanced_analytics.public.ny_taxi_rides_compare\n    WHERE\n        pickup_time BETWEEN DATE(\x27")
      sd
      ("\x27) AND DATE(\x27" ++ ed ++
       "\x27)\n        AND TIME(pickup_time) BETWEEN \x27" ++ st ++
       "\x27 AND \x27" ++ et ++ "\x27\n    GROUP BY 1\n") ?_
    apply String.ext
    simp [baseQueryFormat, List.append_assoc]
  · refine data_infix
      ("\n    SELECT " ++ h3c ++ ", " ++ agg ++ "(" ++ m ++
       ") AS COUNT\n    FROM advanced_analytics.public.ny_taxi_rides_compare\n    WHERE\n        pickup_time BETWEEN DATE(\x27" ++
       sd ++ "\x27) AND DATE(\x27")
      ed
      ("\x27)\n        AND TIME(pickup_time) BETWEEN \x27" ++ st ++
       "\x27 AND \x27" ++ et ++ "\x27\n    GROUP BY 1\n") ?_
    apply String.ext
    simp [baseQueryFormat, List.append_assoc]
  · refine data_infix
      ("\n    SELECT " ++ h3c ++ ", " ++ agg ++ "(" ++ m ++
       ") AS COUNT\n    FROM advanced_analytics.public.ny_taxi_rides_compare\n    WHERE\n        pickup_time BETWEEN DATE(\x27" ++
       sd ++ "\x27) AND DATE(\x27" ++ ed ++
       "\x27)\n        AND TIME(pickup_time) BETWEEN \x27")
      st
      ("\x27 AND \x27" ++ et ++ "\x27\n    GROUP BY 1\n") ?_
    apply String.ext
    simp [baseQueryFormat, List.append_assoc]
  · refine data_infix
      ("\n    SELECT " ++ h3c ++ ", " ++ agg ++ "(" ++ m ++
       ") AS COUNT\n    FROM advanced_analytics.public.ny_taxi_rides_compare\n    WHERE\n        pickup_time BETWEEN DATE(\x27" ++
       sd ++ "\x27) AND DATE(\x27" ++ ed ++
       "\x27)\n        AND TIME(pickup_time) BETWEEN \x27" ++ st ++ "\x27 AND \x27")
      et
      ("\x27\n    GROUP BY 1\n") ?_
    apply String.ext
    simp [baseQueryFormat, List.append_assoc]
  · refine data_infix
      ("\n        SELECT\n            H3_POINT_TO_CELL_STRING(TO_GEOGRAPHY(")
      dim
      ("), " ++ toString r ++ ") AS h3,\n            " ++ aggregationSqlFor meas ++
       "\n        FROM\n            advanced_analytics.public.orders_reviews_sentiment_analysis\n        " ++
       whereClauseFor meas ++ "\n        GROUP BY 1\n    ") ?_
    apply String.ext
    simp [fetchH3Query, List.append_assoc]
  · refine data_infix
      ("\n        SELECT\n            H3_POINT_TO_CELL_STRING(TO_GEOGRAPHY(" ++ dim ++ "), ")
      (toString r)
      (") AS h3,\n            " ++ aggregationSqlFor meas ++
       "\n        FROM\n            advanced_analytics.public.orders_reviews_sentiment_analysis\n        " ++
       whereClauseFor meas ++ "\n        GROUP BY 1\n    ") ?_
    apply String.ext
    simp [fetchH3Query, List.append_assoc]

set_option maxRecDepth 10000 in
/-- Claim C3, counterexample to the claim as stated: the user-supplied start
date appears verbatim inside the built query text — the query is a raw
interpolated string, not a structured parameterized description. -/
theorem C3_counterexample :
    "2015-06-06".data <:+:
      (baseQueryFormat "h3" "SUM" "pickups" "2015-06-06" "2015-06-13"
        "00:00:00" "23:00:00").data := by
  decide

set_option maxRecDepth 4000 in
/-- Claim C4 (amended): `fetch_h3_data` performs no resolution validation
and no `InvalidResolutionError` exists anywhere; out-of-range values are
prevented only by the sidebar slider, whose bounds are 6 and 9.  For every
resolution the slider can deliver, the builder accepts it and splices it
into the query text. -/
theorem C4_resolution_never_rejected (r : ℕ) (dim meas : String)
    (_hlo : H3_RESOLUTION_MIN ≤ r) (_hhi : r ≤ H3_RESOLUTION_MAX) :
    (toString r).data <:+: (fetchH3Query r dim meas).data := by
  refine data_infix
    ("\n        SELECT\n            H3_POINT_TO_CELL_STRING(TO_GEOGRAPHY(" ++ dim ++ "), ")
    (toString r)
    (") AS h3,\n            " ++ aggregationSqlFor meas ++
     "\n        FROM\n            advanced_analytics.public.orders_reviews_sentiment_analysis\n        " ++
     whereClauseFor meas ++ "\n        GROUP BY 1\n    ") ?_
  apply String.ext
  simp [fetchH3Query, List.append_assoc]

/-- Witness for C4 at the slider default, resolution 7. -/
theorem C4_witness :
    (toString 7).data <:+: (fetchH3Query 7 "DELIVERY_LOCATION" "ORDERS").data :=
  C4_resolution_never_rejected 7 "DELIVERY_LOCATION" "ORDERS" (by decide) (by decide)

set_option maxRecDepth 10000 in
/-- Claim C4, counterexample to the claim as stated: at resolution 0 the
builder does not reject — it produces this complete query. -/
theorem C4_counterexample :
    fetchH3Query 0 "DELIVERY_LOCATION" "ORDERS" =
      "\n        SELECT\n            H3_POINT_TO_CELL_STRING(TO_GEOGRAPHY(DELIVERY_LOCATION), 0) AS h3,\n            ROUND(COUNT(*), 2) AS count\n        FROM\n            advanced_analytics.public.orders_reviews_sentiment_analysis\n        \n        GROUP BY 1\n    " := by
  decide

set_option maxRecDepth 4000 in
/-- Claim C5 (amended): only the score measures (AVG aggregation) get an
explicit null-exclusion predicate `WHERE {measure} IS NOT NULL`; the ORDERS
measure (COUNT aggregation) is built with an empty WHERE clause and no
null-exclusion predicate at all. -/
theorem C5_null_exclusion_only_for_scores (r : ℕ) (dim meas : String)
    (h : meas ≠ "ORDERS") :
    ("WHERE " ++ meas ++ " IS NOT NULL").data <:+: (fetchH3Query r dim meas).data := by
  have hw : whereClauseFor meas = "WHERE " ++ meas ++ " IS NOT NULL" := by
    simp [whereClauseFor, h]
  refine data_infix
    ("\n        SELECT\n            H3_POINT_TO_CELL_STRING(TO_GEOGRAPHY(" ++ dim ++
     "), " ++ toString r ++ ") AS h3,\n            " ++ aggregationSqlFor meas ++
     "\n        FROM\n            advanced_analytics.public.orders_reviews_sentiment_analysis\n        ")
    ("WHERE " ++ meas ++ " IS NOT NULL")
    ("\n        GROUP BY 1\n    ") ?_
  rw [← hw]
  apply String.ext
  simp [fetchH3Query, List.append_assoc]

/-- Witness for C5 at a score measure. -/
theorem C5_witness :
    ("WHERE " ++ "SENTIMENT_SCORE" ++ " IS NOT NULL").data <:+:
      (fetchH3Query 7 "DELIVERY_LOCATION" "SENTIMENT_SCORE").data :=
  C5_null_exclusion_only_for_scores 7 "DELIVERY_LOCATION" "SENTIMENT_SCORE" (by decide)

set_option maxRecDepth 10000 in
/-- Claim C5, counterexample to the claim as stated: for the ORDERS measure
(COUNT aggregation) the WHERE clause is empty and the built query contains
no null-exclusion predicate. -/
theorem C5_counterexample :
    whereClauseFor "ORDERS" = "" ∧
    ¬ (" IS NOT NULL".data <:+: (fetchH3Query 7 "DELIVERY_LOCATION" "ORDERS").data) := by
  exact ⟨rfl, by decide⟩

/-! ## Quantile machinery -/

theorem getD_mono_of_sorted {xs : List ℚ} (hs : List.Sorted (· ≤ ·) xs)
    {i j : ℕ} (hij : i ≤ j) (hj : j < xs.length) :
    xs.getD i 0 ≤ xs.getD j 0 := by
  have hi : i < xs.length := Nat.lt_of_le_of_lt hij hj
  rw [List.getD_eq_getElem?_getD, List.getD_eq_getElem?_getD,
      List.getElem?_eq_getElem hi, List.getElem?_eq_getElem hj]
  simp only [Option.getD_some]
  rcases Nat.eq_or_lt_of_le hij with rfl | hlt
  · exact le_refl _
  · have := hs.rel_get_of_lt (show (⟨i, hi⟩ : Fin xs.length) < ⟨j, hj⟩ from hlt)
    simpa using this

theorem length_pos_rat {xs : List ℚ} (hne : xs ≠ []) : 1 ≤ (xs.length : ℚ) := by
  have : 1 ≤ xs.length := List.length_pos.mpr hne
  exact_mod_cast this

theorem qIndex_le_sub_one {xs : List ℚ} (hne : xs ≠ []) {q : ℚ}
    (_h0 : 0 ≤ q) (h1 : q ≤ 1) : qIndex xs q ≤ xs.length - 1 := by
  have hlen : 1 ≤ xs.length := List.length_pos.mpr hne
  have hA : (0 : ℚ) ≤ (xs.length : ℚ) - 1 := by
    have := length_pos_rat hne; linarith
  have hcast : ((xs.length : ℚ) - 1) = ((xs.length - 1 : ℕ) : ℚ) := by
    have : ((xs.length - 1 : ℕ) : ℚ) = (xs.length : ℚ) - 1 := by
      push_cast [hlen]; ring
    linarith
  have hh : q * ((xs.length : ℚ) - 1) ≤ ((xs.length - 1 : ℕ) : ℚ) := by
    rw [← hcast]
    exact mul_le_of_le_one_left hA h1
  have hfloor : ⌊q * ((xs.length : ℚ) - 1)⌋ ≤ ((xs.length - 1 : ℕ) : ℤ) := by
    have := Int.floor_le_floor hh
    rwa [Int.floor_natCast] at this
  exact Int.toNat_le.mpr hfloor

theorem qIndex_cast_le {xs : List ℚ} {q : ℚ} (h0 : 0 ≤ q)
    (hA : (0 : ℚ) ≤ (xs.length : ℚ) - 1) :
    ((qIndex xs q : ℕ) : ℚ) ≤ q * ((xs.length : ℚ) - 1) := by
  have hnn : 0 ≤ ⌊q * ((xs.length : ℚ) - 1)⌋ := Int.floor_nonneg.mpr (mul_nonneg h0 hA)
  have h2 : ((qIndex xs q : ℕ) : ℤ) = ⌊q * ((xs.length : ℚ) - 1)⌋ := by
    simpa [qIndex] using Int.toNat_of_nonneg hnn
  have h3 : ((qIndex xs q : ℕ) : ℚ) = ((⌊q * ((xs.length : ℚ) - 1)⌋ : ℤ) : ℚ) := by
    exact_mod_cast congrArg (fun z : ℤ => (z : ℚ)) h2
  rw [h3]
  exact Int.floor_le _

theorem lt_qIndex_add_one {xs : List ℚ} {q : ℚ} (h0 : 0 ≤ q)
    (hA : (0 : ℚ) ≤ (xs.length : ℚ) - 1) :
    q * ((xs.length : ℚ) - 1) < ((qIndex xs q : ℕ) : ℚ) + 1 := by
  have hnn : 0 ≤ ⌊q * ((xs.length : ℚ) - 1)⌋ := Int.floor_nonneg.mpr (mul_nonneg h0 hA)
  have h2 : ((qIndex xs q : ℕ) : ℤ) = ⌊q * ((xs.length : ℚ) - 1)⌋ := by
    simpa [qIndex] using Int.toNat_of_nonneg hnn
  have h3 : ((qIndex xs q : ℕ) : ℚ) = ((⌊q * ((xs.length : ℚ) - 1)⌋ : ℤ) : ℚ) := by
    exact_mod_cast congrArg (fun z : ℤ => (z : ℚ)) h2
  rw [h3]
  exact Int.lt_floor_add_one _

theorem quantileAt_def (xs : List ℚ) (q : ℚ) :
    quantileAt xs q = xs.getD (qIndex xs q) 0 +
      (q * ((xs.length : ℚ) - 1) - ((qIndex xs q : ℕ) : ℚ)) *
      (xs.getD (min (qIndex xs q + 1) (xs.length - 1)) 0 - xs.getD (qIndex xs q) 0) := rfl

theorem min_lt_length {xs : List ℚ} (hne : xs ≠ []) (i : ℕ) :
    min (i + 1) (xs.length - 1) < xs.length := by
  have : 1 ≤ xs.length := List.length_pos.mpr hne
  have h2 : xs.length - 1 < xs.length := by omega
  exact Nat.lt_of_le_of_lt (Nat.min_le_right _ _) h2

theorem le_quantileAt {xs : List ℚ} (hs : List.Sorted (· ≤ ·) xs) (hne : xs ≠ [])
    {q : ℚ} (h0 : 0 ≤ q) (h1 : q ≤ 1) :
    xs.getD (qIndex xs q) 0 ≤ quantileAt xs q := by
  have hA : (0 : ℚ) ≤ (xs.length : ℚ) - 1 := by
    have := length_pos_rat hne; linarith
  have hii : qIndex xs q ≤ xs.length - 1 := qIndex_le_sub_one hne h0 h1
  have hij : qIndex xs q ≤ min (qIndex xs q + 1) (xs.length - 1) :=
    Nat.le_min.mpr ⟨by omega, hii⟩
  have hjlt : min (qIndex xs q + 1) (xs.length - 1) < xs.length := min_lt_length hne _
  have hlohi : xs.getD (qIndex xs q) 0 ≤ xs.getD (min (qIndex xs q + 1) (xs.length - 1)) 0 :=
    getD_mono_of_sorted hs hij hjlt
  have hfrac : 0 ≤ q * ((xs.length : ℚ) - 1) - ((qIndex xs q : ℕ) : ℚ) := by
    have := qIndex_cast_le h0 hA; linarith
  have hmul := mul_nonneg hfrac (sub_nonneg.mpr hlohi)
  rw [quantileAt_def]
  linarith

theorem quantileAt_le {xs : List ℚ} (hs : List.Sorted (· ≤ ·) xs) (hne : xs ≠ [])
    {q : ℚ} (h0 : 0 ≤ q) (h1 : q ≤ 1) :
    quantileAt xs q ≤ xs.getD (min (qIndex xs q + 1) (xs.length - 1)) 0 := by
  have hA : (0 : ℚ) ≤ (xs.length : ℚ) - 1 := by
    have := length_pos_rat hne; linarith
  have hii : qIndex xs q ≤ xs.length - 1 := qIndex_le_sub_one hne h0 h1
  have hij : qIndex xs q ≤ min (qIndex xs q + 1) (xs.length - 1) :=
    Nat.le_min.mpr ⟨by omega, hii⟩
  have hjlt : min (qIndex xs q + 1) (xs.length - 1) < xs.length := min_lt_length hne _
  have hlohi : xs.getD (qIndex xs q) 0 ≤ xs.getD (min (qIndex xs q + 1) (xs.length - 1)) 0 :=
    getD_mono_of_sorted hs hij hjlt
  have hfrac1 : q * ((xs.length : ℚ) - 1) - ((qIndex xs q : ℕ) : ℚ) ≤ 1 := by
    have := lt_qIndex_add_one h0 hA; linarith
  have hmul := mul_nonneg (sub_nonneg.mpr hfrac1) (sub_nonneg.mpr hlohi)
  rw [quantileAt_def]
  nlinarith [hmul, hlohi]

theorem quantileAt_mono {xs : List ℚ} (hs : List.Sorted (· ≤ ·) xs) (hne : xs ≠ [])
    {q₁ q₂ : ℚ} (h0 : 0 ≤ q₁) (h12 : q₁ ≤ q₂) (h1 : q₂ ≤ 1) :
    quantileAt xs q₁ ≤ quantileAt xs q₂ := by
  have hA : (0 : ℚ) ≤ (xs.length : ℚ) - 1 := by
    have := length_pos_rat hne; linarith
  have h01 : q₁ ≤ 1 := le_trans h12 h1
  have h02 : 0 ≤ q₂ := le_trans h0 h12
  have hmono : qIndex xs q₁ ≤ qIndex xs q₂ := by
    unfold qIndex
    exact Int.toNat_le_toNat (Int.floor_le_floor (mul_le_mul_of_nonneg_right h12 hA))
  rcases Nat.eq_or_lt_of_le hmono with heq | hlt
  · have hii : qIndex xs q₁ ≤ xs.length - 1 := qIndex_le_sub_one hne h0 h01
    have hij : qIndex xs q₁ ≤ min (qIndex xs q₁ + 1) (xs.length - 1) :=
      Nat.le_min.mpr ⟨by omega, hii⟩
    have hjlt : min (qIndex xs q₁ + 1) (xs.length - 1) < xs.length := min_lt_length hne _
    have hlohi : xs.getD (qIndex xs q₁) 0 ≤ xs.getD (min (qIndex xs q₁ + 1) (xs.length - 1)) 0 :=
      getD_mono_of_sorted hs hij hjlt
    have hqq : q₁ * ((xs.length : ℚ) - 1) ≤ q₂ * ((xs.length : ℚ) - 1) :=
      mul_le_mul_of_nonneg_right h12 hA
    rw [quantileAt_def, quantileAt_def, ← heq]
    have hstep := mul_le_mul_of_nonneg_right
      (show q₁ * ((xs.length : ℚ) - 1) - ((qIndex xs q₁ : ℕ) : ℚ)
          ≤ q₂ * ((xs.length : ℚ) - 1) - ((qIndex xs q₁ : ℕ) : ℚ) from by linarith)
      (sub_nonneg.mpr hlohi)
    linarith
  · have h1le := quantileAt_le hs hne h0 h01
    have h2ge := le_quantileAt hs hne h02 h1
    have hi2 : qIndex xs q₂ ≤ xs.length - 1 := qIndex_le_sub_one hne h02 h1
    have hi2lt : qIndex xs q₂ < xs.length := by
      have : 1 ≤ xs.length := List.length_pos.mpr hne
      omega
    have hmid : xs.getD (min (qIndex xs q₁ + 1) (xs.length - 1)) 0
        ≤ xs.getD (qIndex xs q₂) 0 := by
      apply getD_mono_of_sorted hs _ hi2lt
      exact le_trans (Nat.min_le_left _ _) hlt
    linarith

theorem quantileAt_zero (xs : List ℚ) : quantileAt xs 0 = xs.getD 0 0 := by
  unfold quantileAt qIndex
  simp

theorem quantileAt_one {xs : List ℚ} (hne : xs ≠ []) :
    quantileAt xs 1 = xs.getD (xs.length - 1) 0 := by
  have hlen : 1 ≤ xs.length := List.length_pos.mpr hne
  have hcast : (1 : ℚ) * ((xs.length : ℚ) - 1) = ((xs.length - 1 : ℕ) : ℚ) := by
    push_cast [hlen]; ring
  have hq : qIndex xs 1 = xs.length - 1 := by
    unfold qIndex
    rw [hcast, Int.floor_natCast]
    exact Int.toNat_natCast _
  have hj : min (xs.length - 1 + 1) (xs.length - 1) = xs.length - 1 :=
    Nat.min_eq_right (by omega)
  rw [quantileAt_def, hq, hj, hcast]
  ring

theorem sortValues_sorted (values : List ℚ) :
    List.Sorted (· ≤ ·) (sortValues values) :=
  List.sorted_insertionSort _ _

theorem sortValues_perm (values : List ℚ) : List.Perm (sortValues values) values :=
  List.perm_insertionSort _ _

theorem sortValues_ne_nil {values : List ℚ} (hne : values ≠ []) :
    sortValues values ≠ [] := by
  intro h
  apply hne
  have hperm := (sortValues_perm values).symm
  rw [h] at hperm
  exact hperm.eq_nil

theorem sorted_getD_zero_le {xs : List ℚ} (hs : List.Sorted (· ≤ ·) xs)
    (hne : xs ≠ []) : xs.getD 0 0 ∈ xs ∧ ∀ v ∈ xs, xs.getD 0 0 ≤ v := by
  have hpos : 0 < xs.length := List.length_pos.mpr hne
  constructor
  · rw [List.getD_eq_getElem?_getD, List.getElem?_eq_getElem hpos]
    exact List.getElem_mem _
  · intro v hv
    obtain ⟨k, hk, rfl⟩ := List.mem_iff_getElem.mp hv
    have := getD_mono_of_sorted hs (Nat.zero_le k) hk
    rwa [List.getD_eq_getElem?_getD xs k, List.getElem?_eq_getElem hk] at this

theorem sorted_getD_last_ge {xs : List ℚ} (hs : List.Sorted (· ≤ ·) xs)
    (hne : xs ≠ []) :
    xs.getD (xs.length - 1) 0 ∈ xs ∧ ∀ v ∈ xs, v ≤ xs.getD (xs.length - 1) 0 := by
  have hpos : 0 < xs.length := List.length_pos.mpr hne
  have hlast : xs.length - 1 < xs.length := by omega
  constructor
  · rw [List.getD_eq_getElem?_getD, List.getElem?_eq_getElem hlast]
    exact List.getElem_mem _
  · intro v hv
    obtain ⟨k, hk, rfl⟩ := List.mem_iff_getElem.mp hv
    have := getD_mono_of_sorted hs (show k ≤ xs.length - 1 by omega) hlast
    rwa [List.getD_eq_getElem?_getD xs k, List.getElem?_eq_getElem hk] at this

/-! ## Quantile break properties (claims C2, C7, C8) -/

/-- Claim C2: for every non-empty value sequence, the quantile computation
returns five breaks that are monotonically non-decreasing, with the first
break the minimum of the values and the last break the maximum. -/
theorem C2_breaks_sorted_min_max (values : List ℚ) (hne : values ≠ []) :
    (quantileBreaks values).length = 5 ∧
    (quantileBreaks values).getD 0 0 ≤ (quantileBreaks values).getD 1 0 ∧
    (quantileBreaks values).getD 1 0 ≤ (quantileBreaks values).getD 2 0 ∧
    (quantileBreaks values).getD 2 0 ≤ (quantileBreaks values).getD 3 0 ∧
    (quantileBreaks values).getD 3 0 ≤ (quantileBreaks values).getD 4 0 ∧
    values.min? = some ((quantileBreaks values).getD 0 0) ∧
    values.max? = some ((quantileBreaks values).getD 4 0) := by
  have hs := sortValues_sorted values
  have hsne := sortValues_ne_nil hne
  have hb : quantileBreaks values = [quantileAt (sortValues values) 0,
      quantileAt (sortValues values) (1/4), quantileAt (sortValues values) (1/2),
      quantileAt (sortValues values) (3/4), quantileAt (sortValues values) 1] := rfl
  rw [hb]
  simp only [List.getD_cons_zero, List.getD_cons_succ]
  have anti : Std.Antisymm ((· : ℚ) ≤ ·) := ⟨fun h1 h2 => le_antisymm h1 h2⟩
  refine ⟨rfl,
    quantileAt_mono hs hsne (by norm_num) (by norm_num) (by norm_num),
    quantileAt_mono hs hsne (by norm_num) (by norm_num) (by norm_num),
    quantileAt_mono hs hsne (by norm_num) (by norm_num) (by norm_num),
    quantileAt_mono hs hsne (by norm_num) (by norm_num) (by norm_num), ?_, ?_⟩
  · rw [List.min?_eq_some_iff (fun a => le_refl a) (fun a b => min_choice a b)
      (fun a b c => le_min_iff), quantileAt_zero]
    have hmin := sorted_getD_zero_le hs hsne
    exact ⟨(sortValues_perm values).mem_iff.mp hmin.1,
      fun b hbv => hmin.2 b ((sortValues_perm values).mem_iff.mpr hbv)⟩
  · rw [List.max?_eq_some_iff (fun a => le_refl a) (fun a b => max_choice a b)
      (fun a b c => max_le_iff), quantileAt_one hsne]
    have hmax := sorted_getD_last_ge hs hsne
    exact ⟨(sortValues_perm values).mem_iff.mp hmax.1,
      fun b hbv => hmax.2 b ((sortValues_perm values).mem_iff.mpr hbv)⟩

/-- Witness for C2 at the spec example `[1, 2, 3, 4, 100]`. -/
theorem C2_witness :
    (quantileBreaks [1, 2, 3, 4, 100]).length = 5 ∧
    (quantileBreaks [1, 2, 3, 4, 100]).getD 0 0 ≤ (quantileBreaks [1, 2, 3, 4, 100]).getD 1 0 ∧
    (quantileBreaks [1, 2, 3, 4, 100]).getD 1 0 ≤ (quantileBreaks [1, 2, 3, 4, 100]).getD 2 0 ∧
    (quantileBreaks [1, 2, 3, 4, 100]).getD 2 0 ≤ (quantileBreaks [1, 2, 3, 4, 100]).getD 3 0 ∧
    (quantileBreaks [1, 2, 3, 4, 100]).getD 3 0 ≤ (quantileBreaks [1, 2, 3, 4, 100]).getD 4 0 ∧
    ([1, 2, 3, 4, 100] : List ℚ).min? = some ((quantileBreaks [1, 2, 3, 4, 100]).getD 0 0) ∧
    ([1, 2, 3, 4, 100] : List ℚ).max? = some ((quantileBreaks [1, 2, 3, 4, 100]).getD 4 0) :=
  C2_breaks_sorted_min_max [1, 2, 3, 4, 100] (by decide)

theorem getD_replicate_of_le {k i : ℕ} {c : ℚ} (h : i ≤ k) :
    (List.replicate (k + 1) c).getD i 0 = c := by
  have hi : i < (List.replicate (k + 1) c).length := by
    simp only [List.length_replicate]; omega
  rw [List.getD_eq_getElem?_getD, List.getElem?_eq_getElem hi]
  simp

theorem quantileAt_replicate (k : ℕ) (c : ℚ) {q : ℚ} (h0 : 0 ≤ q) (h1 : q ≤ 1) :
    quantileAt (List.replicate (k + 1) c) q = c := by
  have hne : (List.replicate (k + 1) c) ≠ [] := by simp
  have hi : qIndex (List.replicate (k + 1) c) q ≤ k := by
    have := qIndex_le_sub_one hne h0 h1
    simpa using this
  have hj : min (qIndex (List.replicate (k + 1) c) q + 1)
      ((List.replicate (k + 1) c).length - 1) ≤ k := by
    simp only [List.length_replicate]
    omega
  rw [quantileAt_def, getD_replicate_of_le hi, getD_replicate_of_le hj]
  ring

theorem quantileBreaks_replicate (k : ℕ) (c : ℚ) :
    quantileBreaks (List.replicate (k + 1) c) = [c, c, c, c, c] := by
  have hmem : ∀ x ∈ sortValues (List.replicate (k + 1) c), x = c := by
    intro x hx
    exact List.eq_of_mem_replicate ((sortValues_perm _).mem_iff.mp hx)
  have hlen : (sortValues (List.replicate (k + 1) c)).length = k + 1 := by
    simpa using (sortValues_perm (List.replicate (k + 1) c)).length_eq
  have hsort : sortValues (List.replicate (k + 1) c) = List.replicate (k + 1) c := by
    rw [List.eq_replicate_iff]
    exact ⟨hlen, hmem⟩
  have e : ∀ q : ℚ, 0 ≤ q → q ≤ 1 → quantileAt (List.replicate (k + 1) c) q = c :=
    fun q h0 h1 => quantileAt_replicate k c h0 h1
  show [quantileAt (sortValues (List.replicate (k + 1) c)) 0,
        quantileAt (sortValues (List.replicate (k + 1) c)) (1/4),
        quantileAt (sortValues (List.replicate (k + 1) c)) (1/2),
        quantileAt (sortValues (List.replicate (k + 1) c)) (3/4),
        quantileAt (sortValues (List.replicate (k + 1) c)) 1] = [c, c, c, c, c]
  rw [hsort, e 0 (by norm_num) (by norm_num), e (1/4) (by norm_num) (by norm_num),
      e (1/2) (by norm_num) (by norm_num), e (3/4) (by norm_num) (by norm_num),
      e 1 (by norm_num) (by norm_num)]

/-- Claim C7 (amended): when all five quantile breaks are equal — as
happens for every distribution with a single distinct value, whose breaks
are `[c, c, c, c, c]` — the colormap clamps every value at or below the
common break to the FIRST palette color and every value above it to the
LAST palette color; no value maps to a middle palette color. -/
theorem C7_degenerate_breaks_clamp (b v : ℚ) (palette : List RGBA) :
    rgbaFloatsTuple palette [b, b, b, b, b] v =
      (if v ≤ b then palette.getD 0 ⟨0, 0, 0, 0⟩ else palette.getLastD ⟨0, 0, 0, 0⟩) ∧
    (∀ (k : ℕ) (c : ℚ), quantileBreaks (List.replicate (k + 1) c) = [c, c, c, c, c]) := by
  constructor
  · by_cases h : v ≤ b
    · simp [rgbaFloatsTuple, h]
    · have hb : b ≤ v := le_of_not_le h
      simp [rgbaFloatsTuple, h, hb]
  · exact fun k c => quantileBreaks_replicate k c

/-- Claim C7, counterexample to the claim as stated: for the degenerate
one-distinct-value distribution `[5]` all five breaks equal 5, and the
value 5 is colored with the FIRST palette color (gray), which differs from
both middle colors of the six-color palette (green at index 2, yellow at
index 3) — not the middle color the claim asserts. -/
theorem C7_counterexample :
    quantileBreaks [5] = [5, 5, 5, 5, 5] ∧
    rgbaFloatsTuple COLOR_PALETTE (quantileBreaks [5]) 5 = COLOR_PALETTE.getD 0 ⟨0, 0, 0, 0⟩ ∧
    COLOR_PALETTE.getD 0 ⟨0, 0, 0, 0⟩ ≠ COLOR_PALETTE.getD 2 ⟨0, 0, 0, 0⟩ ∧
    COLOR_PALETTE.getD 0 ⟨0, 0, 0, 0⟩ ≠ COLOR_PALETTE.getD 3 ⟨0, 0, 0, 0⟩ := by
  have h5 : quantileBreaks [(5 : ℚ)] = [5, 5, 5, 5, 5] := quantileBreaks_replicate 0 5
  refine ⟨h5, ?_, ?_, ?_⟩
  · rw [h5]
    simp [rgbaFloatsTuple]
  · norm_num [COLOR_PALETTE]
  · norm_num [COLOR_PALETTE]

/-! ## Elevation derivation (claim C6) -/

/-- Claim C6 (amended): in Part 1 the renderer's elevation is guarded by
`max_count > 0`, so the per-row intensity is `value / max` when the maximum
is positive and the literal 0 otherwise, and no division fault can occur.
In Part 2 the guard only checks frame emptiness, so on a non-empty frame
the emitted expression is always `value / max`: it divides by zero
(a fault, `none`) exactly when the maximum is 0. -/
theorem C6_elevation_guard (rows : List MetricRow) (v : ℚ) (hne : rows ≠ []) :
    part1GetElevation rows v =
      some (if 0 < maxCount rows then v / maxCount rows else 0) ∧
    part2GetElevation rows v =
      (if maxCount rows = 0 then none else some (v / maxCount rows)) := by
  constructor
  · by_cases h : 0 < maxCount rows
    · simp [part1GetElevation, checkedDiv, h, ne_of_gt h]
    · simp [part1GetElevation, h]
  · simp [part2GetElevation, checkedDiv, hne]

/-- Witness for C6 on a one-row frame with count 2. -/
theorem C6_witness :
    part1GetElevation [⟨"a", 2⟩] 1 = some (1 / 2) ∧
    part2GetElevation [⟨"a", 2⟩] 1 = some (1 / 2) := by
  have hm : maxCount [⟨"a", 2⟩] = 2 := rfl
  have h := C6_elevation_guard [⟨"a", 2⟩] 1 (by decide)
  rw [hm] at h
  norm_num at h
  exact h

/-- Claim C6, counterexample to the claim as stated: a non-empty Part 2
frame whose maximum count is 0 yields a division-by-zero elevation
expression (a fault), not the intensity 0 the claim requires. -/
theorem C6_counterexample :
    maxCount [⟨"a", 0⟩] = 0 ∧ part2GetElevation [⟨"a", 0⟩] 0 = none := by
  decide

/-! ## Empty-input handling (claim C8) -/

/-- Claim C8 (amended): neither app raises any error on an empty value
sequence — Part 2 `fetch_h3_data` returns the empty-frame/empty-series
sentinel before computing quantiles, and Part 1 `generate_color_map`
returns the empty frame unchanged; on every non-empty frame the five
quantile breaks are computed.  No `EmptyInputError` exists. -/
theorem C8_empty_returns_sentinel (rows : List MetricRow)
    (sr : Option (ℚ × ℚ)) (palette : List RGBA) :
    fetchH3Process [] sr = ([], []) ∧
    generate_color_map palette [] = [] ∧
    (rows ≠ [] → (fetchH3Process rows sr).2 = quantileBreaks (rows.map (fun r => r.count))) := by
  refine ⟨?_, rfl, ?_⟩
  · rfl
  · intro h
    simp [fetchH3Process, h]

/-- Witness for C8 on a one-row frame. -/
theorem C8_witness :
    (fetchH3Process [⟨"a", 1⟩] none).2 =
      quantileBreaks (([⟨"a", 1⟩] : List MetricRow).map (fun r => r.count)) :=
  (C8_empty_returns_sentinel [⟨"a", 1⟩] none COLOR_PALETTE).2.2 (by decide)

/-- Claim C8, counterexample to the claim as stated: on the empty sequence
the code returns a sentinel value — `([], [])` from `fetch_h3_data` and the
unchanged empty frame from `generate_color_map` — whereas the claimed
contract (`computeBreaksSpec`, modelled from the spec) demands failure with
`EmptyInputError`. -/
theorem C8_counterexample :
    fetchH3Process [] none = ([], []) ∧
    generate_color_map COLOR_PALETTE [] = [] ∧
    computeBreaksSpec [] = Except.error "EmptyInputError" :=
  ⟨rfl, rfl, rfl⟩

/-! ## Time-series aggregation (claims C9, C10) -/

/-- Claim C9: two time-series points inside the inclusive date and time
windows that share an exact timestamp — regardless of their (possibly
different) cell ids — are aggregated, when no cell is selected, into a
single output point whose actual and forecast are summed independently. -/
theorem C9_timestamp_group_sum (p q : TimeSeriesPoint) (dateRange timeRange : ℕ × ℕ)
    (hpd : inDateRange dateRange p = true) (hpt : inTimeRange timeRange p = true)
    (hqd : inDateRange dateRange q = true) (hqt : inTimeRange timeRange q = true)
    (hd : q.date = p.date) (ht : q.time = p.time) :
    timeSeriesAgg [p, q] dateRange timeRange "All" =
      [((p.date, p.time), p.pickups + q.pickups, p.forecast + q.forecast)] := by
  have hf : filterTimeSeries [p, q] dateRange timeRange = [p, q] := by
    simp [filterTimeSeries, hpd, hpt, hqd, hqt]
  have hcs : cellSelect [p, q] "All" = [p, q] := by
    simp [cellSelect]
  rw [timeSeriesAgg, hf, hcs]
  simp [groupSumByTimestamp, hd, ht]

/-- Witness for C9: the spec example — two points at 2015-06-07 10:00 in
different cells with (actual, forecast) = (5, 4) and (3, 2), date range
2015-06-06 to 2015-06-13 and time range 00:00 to 23:00 (minutes), aggregate
to the single output point (8, 6). -/
theorem C9_witness :
    timeSeriesAgg [⟨20150607, 600, "cellA", 5, 4⟩, ⟨20150607, 600, "cellB", 3, 2⟩]
      (20150606, 20150613) (0, 1380) "All" = [((20150607, 600), 8, 6)] := by
  have h := C9_timestamp_group_sum ⟨20150607, 600, "cellA", 5, 4⟩
    ⟨20150607, 600, "cellB", 3, 2⟩ (20150606, 20150613) (0, 1380)
    (by decide) (by decide) (by decide) (by decide) rfl rfl
  norm_num at h
  exact h

/-- Claim C10: a time window whose start time is strictly after its end
time selects nothing — the inclusive window is empty by construction (no
wraparound across midnight) — so the aggregation returns an empty sequence
rather than raising an error. -/
theorem C10_reversed_time_window_empty (pts : List TimeSeriesPoint)
    (dateRange timeRange : ℕ × ℕ) (selectedH3 : String)
    (h : timeRange.2 < timeRange.1) :
    timeSeriesAgg pts dateRange timeRange selectedH3 = [] := by
  have hf : filterTimeSeries pts dateRange timeRange = [] := by
    rw [filterTimeSeries, List.filter_eq_nil_iff]
    intro p hp
    simp only [inDateRange, inTimeRange, Bool.and_eq_true, decide_eq_true_eq, not_and]
    intro h1 h2 h3
    omega
  rw [timeSeriesAgg, hf]
  simp [cellSelect, groupSumByTimestamp]

/-- Witness for C10 at the spec example time range 09:00-08:00 (in
minutes: 540 to 480). -/
theorem C10_witness :
    timeSeriesAgg [⟨20150607, 600, "cellA", 5, 4⟩] (20150606, 20150613)
      (540, 480) "All" = [] :=
  C10_reversed_time_window_empty _ _ _ _ (by decide)

/-! ## Color-scale stability (claim C1) -/

/-- Claim C1: color-scale stability.  Part 1: every row retained by the
post-coloring H3 filter keeps exactly the (row, color) pair of the
unfiltered computation, its color computed from the full distribution's
quantile breaks.  Part 2: every row colored after the score-range filter
receives exactly the color it receives in the unfiltered computation,
because the quantiles are computed over the full frame before filtering. -/
theorem C1_color_scale_stability (palette : List RGBA) (rows : List MetricRow) :
    (∀ selectedH3 : String,
      ∀ rc ∈ part1FilterH3 (generate_color_map palette rows) selectedH3,
        rc ∈ generate_color_map palette rows ∧
        rc.2 = rgbBytesTuple palette (quantileBreaks (rows.map (fun r => r.count)))
          rc.1.count) ∧
    (∀ scoreRange : Option (ℚ × ℚ),
      ∀ rc ∈ part2ColoredRows palette rows scoreRange,
        rc ∈ part2ColoredRows palette rows none) := by
  constructor
  · intro sel rc hrc
    have hmem : rc ∈ generate_color_map palette rows := by
      unfold part1FilterH3 at hrc
      split at hrc
      · exact hrc
      · exact (List.mem_filter.mp hrc).1
    refine ⟨hmem, ?_⟩
    by_cases hrows : rows = []
    · rw [generate_color_map, if_pos hrows] at hmem
      exact absurd hmem (List.not_mem_nil rc)
    · rw [generate_color_map, if_neg hrows] at hmem
      obtain ⟨r, _hr, rfl⟩ := List.mem_map.mp hmem
      rfl
  · intro sr rc hrc
    by_cases hrows : rows = []
    · subst hrows
      simp [part2ColoredRows, fetchH3Process] at hrc
    · have hq : (fetchH3Process rows sr).2 = (fetchH3Process rows none).2 := by
        unfold fetchH3Process
        rw [if_neg hrows, if_neg hrows]
      have hsub : ∀ r ∈ (fetchH3Process rows sr).1, r ∈ (fetchH3Process rows none).1 := by
        intro r hr
        cases sr with
        | none => exact hr
        | some pr =>
          obtain ⟨lo, hi⟩ := pr
          unfold fetchH3Process at hr ⊢
          rw [if_neg hrows] at hr ⊢
          exact (List.mem_filter.mp hr).1
      unfold part2ColoredRows at hrc ⊢
      rw [hq] at hrc
      obtain ⟨r, hr, rfl⟩ := List.mem_map.mp hrc
      exact List.mem_map.mpr ⟨r, hsub r hr, rfl⟩

/-- Witness for C1 on a one-row frame: the colored row survives the Part 1
cell filter and the Part 2 score filter with its unfiltered color. -/
theorem C1_witness :
    ((⟨"a", 2⟩ : MetricRow), rgbBytesTuple COLOR_PALETTE (quantileBreaks [2]) 2) ∈
        generate_color_map COLOR_PALETTE [⟨"a", 2⟩] ∧
    ((⟨"a", 2⟩ : MetricRow), rgbBytesTuple COLOR_PALETTE (quantileBreaks [2]) 2) ∈
        part2ColoredRows COLOR_PALETTE [⟨"a", 2⟩] none := by
  have h := C1_color_scale_stability COLOR_PALETTE [⟨"a", 2⟩]
  refine ⟨(h.1 "a" _ ?_).1, h.2 (some (0, 5)) _ ?_⟩
  · exact List.mem_singleton.mpr rfl
  · exact List.mem_singleton.mpr rfl
